import Mathlib

/-!
Verification of the cuckoo-filter implementation (`src/lib.rs`).

The Rust code is shallowly embedded as follows.

* Machine integers become `Nat` with explicit truncation (`% 2 ^ 32` for
  `as u32`, `/ 2 ^ 32` for `>> 32` on a `u64`).
* The opaque 64-bit hash `hash64` is a parameter: an item is represented
  directly by its 64-bit hash value `h : Nat`, and the hashes of fingerprint
  values (`self.index(&finger)`) are given by a parameter function
  `fh : Nat → Nat` (one per slot width, since Rust hashes `u8` and `u16`
  differently).
* The thread RNG is an oracle `Rng`: a boolean for the
  `[idx_1, idx_2].choose` draw and a stream `entryPick : Nat → Nat` for the
  successive `gen_range(0, num_entries)` draws of the relocation loop
  (indexed by the loop counter `swaps`).  Validity of the oracle
  (`entryPick k < num_entries`, which `gen_range` guarantees) is an explicit
  hypothesis where needed.
* The mutable bucket vector becomes explicit state passing of a `List Nat`;
  `Filter`'s `RefCell` fields become plain fields threaded through `insert`.
* Fallible operations return `Except`/`Option`.  `try_insert` returns
  `none` exactly when the Rust function returns `false`, in which case the
  Rust loop has performed no write, so the caller keeps the unchanged vector.
-/

namespace Cuckoo

/-- Construction parameters, from `pub struct Config`.  Field ranges
(`finger_bits num_entries max_swaps : u8`, `num_buckets : u32`) are not
needed by any theorem, so the fields are plain `Nat`. -/
structure Config where
  finger_bits : Nat
  num_buckets : Nat
  num_entries : Nat
  max_swaps : Nat
deriving DecidableEq, Repr

/-- Slot width tag, from `enum BucketType { U8, U16 }`. -/
inductive BucketType where
  | u8
  | u16
deriving DecidableEq, Repr

/-- The filter state, from `pub struct Filter`.  The two `Buckets` variants
(`Vec<u8>` / `Vec<u16>`) are both represented as `List Nat`; which width is
in use is recorded by `bucket_type`, exactly as in the source. -/
structure Filter where
  finger_bits : Nat
  num_buckets : Nat
  num_entries : Nat
  max_swaps : Nat
  bucket_type : BucketType
  buckets : List Nat
  used : Nat
deriving DecidableEq, Repr

/-- From `Filter::init_buckets`: allocates `num_buckets * num_entries`
zeroed slots when `finger_bits` is 8 or 16, and fails otherwise. -/
def init_buckets (num_buckets num_entries finger_bits : Nat) :
    Except Unit (List Nat × BucketType) :=
  let n := num_buckets * num_entries
  if finger_bits = 8 then
    Except.ok (List.replicate n 0, BucketType.u8)
  else if finger_bits = 16 then
    Except.ok (List.replicate n 0, BucketType.u16)
  else
    Except.error ()

/-- From `Filter::new`: copies the config fields, installs the freshly
allocated buckets, and starts `used` at 0. -/
def Filter.new (c : Config) : Except Unit Filter :=
  match init_buckets c.num_buckets c.num_entries c.finger_bits with
  | Except.ok bb =>
      Except.ok
        { finger_bits := c.finger_bits
          num_buckets := c.num_buckets
          num_entries := c.num_entries
          max_swaps := c.max_swaps
          bucket_type := bb.2
          buckets := bb.1
          used := 0 }
  | Except.error _ => Except.error ()

/-- From `Filter::capacity`: `num_buckets as u64 * num_entries as u64`
(no overflow: the factors fit in 32 and 8 bits). -/
def Filter.capacity (f : Filter) : Nat :=
  f.num_buckets * f.num_entries

/-- From `Filter::bits`: `capacity * finger_bits`. -/
def Filter.bits (f : Filter) : Nat :=
  f.capacity * f.finger_bits

/-- From `Filter::finger8_index`: the fingerprint part,
`((h >> 32) % 255) as u8 + 1`. -/
def finger8 (h : Nat) : Nat :=
  (h / 2 ^ 32) % 255 + 1

/-- From `Filter::finger16_index`: the fingerprint part,
`((h >> 32) % 65535) as u16 + 1`. -/
def finger16 (h : Nat) : Nat :=
  (h / 2 ^ 32) % 65535 + 1

/-- From `(h as u32) % self.num_buckets`, the bucket index computation shared
by `finger8_index`, `finger16_index` and `Filter::index`.  Rust's `%` on
integers panics when `num_buckets = 0`; this total version is meaningful only
under `0 < num_buckets` (see `index_checked` for the fallible model). -/
def bucketIndex (num_buckets h : Nat) : Nat :=
  (h % 2 ^ 32) % num_buckets

/-- Rust's `(h as u32) % self.num_buckets` with the division-by-zero panic
modelled explicitly: `none` is the panic on `num_buckets = 0`. -/
def index_checked (num_buckets h : Nat) : Option Nat :=
  if num_buckets = 0 then none else some (bucketIndex num_buckets h)

/-- From `Filter::index` applied to a fingerprint: `self.index(&finger)`
hashes the fingerprint value alone (`fh`, standing for `hash64` on the
fingerprint's type) and reduces it modulo `num_buckets`. -/
def partner_index (fh : Nat → Nat) (num_buckets finger : Nat) : Nat :=
  bucketIndex num_buckets (fh finger)

/-- The scan loop of `Filter::try_insert_u8` / `try_insert_u16`:
`for i in start .. start + count { if vec[i] == 0 { vec[i] = finger; return true } }`.
Returns the updated vector at the first zero slot, `none` if no slot in the
range is zero (the Rust loop writes nothing in that case). -/
def tryInsertScan (finger : Nat) : List Nat → Nat → Nat → Option (List Nat)
  | _, _, 0 => none
  | vec, i, count + 1 =>
      if vec.getD i 0 = 0 then some (vec.set i finger)
      else tryInsertScan finger vec (i + 1) count

/-- From `Filter::try_insert_u8` / `try_insert_u16`: scan the `num_entries`
slots of bucket `bucket`, starting at `bucket * num_entries`. -/
def tryInsertBucket (num_entries : Nat) (vec : List Nat) (bucket finger : Nat) :
    Option (List Nat) :=
  tryInsertScan finger vec (bucket * num_entries) num_entries

/-- `Filter::try_insert_u8` / `try_insert_u16` with Rust's signature made
explicit-state: the returned `Bool` is the Rust return value and the returned
vector is the store after the call (unchanged when the scan finds no empty
slot, since the Rust loop writes only at its success exit). -/
def try_insert (num_entries : Nat) (vec : List Nat) (bucket finger : Nat) :
    Bool × List Nat :=
  match tryInsertBucket num_entries vec bucket finger with
  | some w => (true, w)
  | none => (false, vec)

/-- From `Filter::swap_u8` / `swap_u16`: unconditionally overwrite slot
`bucket * num_entries + entry` with `finger` and return the old value. -/
def swapSlot (num_entries : Nat) (vec : List Nat) (bucket entry finger : Nat) :
    Nat × List Nat :=
  let i := bucket * num_entries + entry
  (vec.getD i 0, vec.set i finger)

/-- Random-source oracle for one `insert` call: `chooseFirst` is the
`[idx_1, idx_2].choose` draw (`true` picks `idx_1`), and `entryPick swaps` is
the `gen_range(0, num_entries)` draw of loop iteration `swaps`. -/
structure Rng where
  chooseFirst : Bool
  entryPick : Nat → Nat

/-- The oracle only produces entry indices `gen_range(0, num_entries)`
could produce. -/
def Rng.valid (rng : Rng) (num_entries : Nat) : Prop :=
  ∀ k, rng.entryPick k < num_entries

/-- The relocation loop of `insert_u8` / `insert_u16`:
`for swaps in 1 ..= max_swaps { entry = gen_range(0, num_entries);
finger = swap(idx, entry, finger); idx = index(&finger);
if try_insert(idx, finger) { return Ok(swaps) } } return Err(max_swaps)`.
`fuel` is the number of remaining iterations (`max_swaps` at entry) and
`swaps` the loop counter (1 at entry). -/
def kickLoop (cfg : Config) (fh : Nat → Nat) (pick : Nat → Nat) :
    Nat → Nat → Nat → Nat → List Nat → Except Nat Nat × List Nat
  | _, 0, _, _, vec => (Except.error cfg.max_swaps, vec)
  | swaps, fuel + 1, idx, finger, vec =>
      let entry := pick swaps
      let sv := swapSlot cfg.num_entries vec idx entry finger
      let idx1 := partner_index fh cfg.num_buckets sv.1
      match tryInsertBucket cfg.num_entries sv.2 idx1 sv.1 with
      | some vec2 => (Except.ok swaps, vec2)
      | none => kickLoop cfg fh pick (swaps + 1) fuel idx1 sv.1 sv.2

/-- From `Filter::insert_u8` / `insert_u16`, parametrised by the fingerprint
function (`finger8` or `finger16`) and the fingerprint hash `fh`: try the
primary bucket, then the partner bucket, then enter the relocation loop at a
randomly chosen one of the two. -/
def insertCore (cfg : Config) (fingerOf : Nat → Nat) (fh : Nat → Nat)
    (rng : Rng) (h : Nat) (vec : List Nat) : Except Nat Nat × List Nat :=
  let finger := fingerOf h
  let idx_1 := bucketIndex cfg.num_buckets h
  match tryInsertBucket cfg.num_entries vec idx_1 finger with
  | some vec1 => (Except.ok 0, vec1)
  | none =>
      let idx_2 := partner_index fh cfg.num_buckets finger
      match tryInsertBucket cfg.num_entries vec idx_2 finger with
      | some vec1 => (Except.ok 0, vec1)
      | none =>
          let idx := if rng.chooseFirst then idx_1 else idx_2
          kickLoop cfg fh rng.entryPick 1 cfg.max_swaps idx finger vec

/-- `Filter::insert_u8` is `insertCore` with the 8-bit fingerprint. -/
def insert_u8 (cfg : Config) (fh8 : Nat → Nat) (rng : Rng) (h : Nat)
    (vec : List Nat) : Except Nat Nat × List Nat :=
  insertCore cfg finger8 fh8 rng h vec

/-- `Filter::insert_u16` is `insertCore` with the 16-bit fingerprint. -/
def insert_u16 (cfg : Config) (fh16 : Nat → Nat) (rng : Rng) (h : Nat)
    (vec : List Nat) : Except Nat Nat × List Nat :=
  insertCore cfg finger16 fh16 rng h vec

/-- The `hash64` parameter functions on fingerprint values, one per slot
width (Rust hashes a `u8` and a `u16` through different `Hash` impls). -/
structure HashFns where
  fh8 : Nat → Nat
  fh16 : Nat → Nat

/-- The config view of a filter (the four copied-in fields). -/
def Filter.config (f : Filter) : Config :=
  { finger_bits := f.finger_bits
    num_buckets := f.num_buckets
    num_entries := f.num_entries
    max_swaps := f.max_swaps }

/-- Whether an insert result is `Ok`, from `result.is_ok()`. -/
def isOkResult : Except Nat Nat → Bool
  | Except.ok _ => true
  | Except.error _ => false

/-- The `match self.bucket_type` dispatch of `Filter::insert`. -/
def Filter.rawInsert (hf : HashFns) (rng : Rng) (h : Nat) (f : Filter) :
    Except Nat Nat × List Nat :=
  match f.bucket_type with
  | BucketType.u8 => insert_u8 f.config hf.fh8 rng h f.buckets
  | BucketType.u16 => insert_u16 f.config hf.fh16 rng h f.buckets

/-- The tail of `Filter::insert`: install the possibly mutated buckets and
perform `if result.is_ok() { used.replace_with(|x| x + 1) }`. -/
def applyResult (f : Filter) (r : Except Nat Nat × List Nat) :
    Except Nat Nat × Filter :=
  match r.1 with
  | Except.ok n => (Except.ok n, { f with buckets := r.2, used := f.used + 1 })
  | Except.error e => (Except.error e, { f with buckets := r.2 })

/-- From `Filter::insert`: dispatch on `bucket_type`, then
`if result.is_ok() { used.replace_with(|x| x + 1) }`.  The item is
represented by its 64-bit hash `h`. -/
def Filter.insert (hf : HashFns) (rng : Rng) (h : Nat) (f : Filter) :
    Except Nat Nat × Filter :=
  applyResult f (f.rawInsert hf rng h)

/-- One `insert` call of a sequence: its random draws and the item's hash. -/
structure InsertCall where
  rng : Rng
  h : Nat

/-- Run a finite sequence of `insert` calls, collecting the results. -/
def runInserts (hf : HashFns) : Filter → List InsertCall →
    List (Except Nat Nat) × Filter
  | f, [] => ([], f)
  | f, c :: cs =>
      let r := Filter.insert hf c.rng c.h f
      let rest := runInserts hf r.2 cs
      (r.1 :: rest.1, rest.2)

/-- Number of `Ok` results in a result list. -/
def countOk : List (Except Nat Nat) → Nat
  | [] => 0
  | Except.ok _ :: rs => countOk rs + 1
  | Except.error _ :: rs => countOk rs

/-- Number of occupied (nonzero) slots of a bucket vector. -/
def countNonzero : List Nat → Nat
  | [] => 0
  | x :: xs => (if x = 0 then 0 else 1) + countNonzero xs

/-- Well-formedness of a filter state: the vector has exactly
`num_buckets * num_entries` slots and the occupancy counter agrees with the
number of nonzero slots. -/
def Filter.WF (f : Filter) : Prop :=
  f.buckets.length = f.num_buckets * f.num_entries ∧
  countNonzero f.buckets = f.used

/-- Every slot of bucket `bucket` is occupied. -/
def bucketFull (num_entries : Nat) (vec : List Nat) (bucket : Nat) : Prop :=
  ∀ j < num_entries, vec.getD (bucket * num_entries + j) 0 ≠ 0

/-! ### Basic list-slot lemmas -/

theorem getD_replicate_zero (n i : Nat) :
    (List.replicate n (0 : Nat)).getD i 0 = 0 := by
  induction n generalizing i with
  | zero => simp
  | succ n ih =>
    cases i with
    | zero => simp [List.replicate_succ]
    | succ i =>
      rw [List.replicate_succ]
      simp [ih i]

theorem getD_set_self (l : List Nat) (i v : Nat) (h : i < l.length) :
    (l.set i v).getD i 0 = v := by
  induction l generalizing i with
  | nil => simp at h
  | cons a l ih =>
    cases i with
    | zero => simp
    | succ i => simpa using ih i (by simpa using h)

theorem getD_set_ne (l : List Nat) (i j v : Nat) (h : i ≠ j) :
    (l.set i v).getD j 0 = l.getD j 0 := by
  induction l generalizing i j with
  | nil => simp
  | cons a l ih =>
    cases i with
    | zero =>
      cases j with
      | zero => exact absurd rfl h
      | succ j => simp
    | succ i =>
      cases j with
      | zero => simp
      | succ j => simpa using ih i j (fun hh => h (by rw [hh]))

theorem countNonzero_le_length (l : List Nat) : countNonzero l ≤ l.length := by
  induction l with
  | nil => simp [countNonzero]
  | cons a l ih =>
    by_cases h : a = 0 <;> simp [countNonzero, h] <;> omega

theorem countNonzero_set_zero (l : List Nat) (i v : Nat) (hi : i < l.length)
    (h0 : l.getD i 0 = 0) (hv : v ≠ 0) :
    countNonzero (l.set i v) = countNonzero l + 1 := by
  induction l generalizing i with
  | nil => simp at hi
  | cons a l ih =>
    cases i with
    | zero =>
      have ha : a = 0 := by simpa using h0
      simp [countNonzero, ha, hv]
      omega
    | succ i =>
      have := ih i (by simpa using hi) (by simpa using h0)
      simp only [List.set_cons_succ, countNonzero, this]
      omega

theorem countNonzero_set_nonzero (l : List Nat) (i v : Nat) (hi : i < l.length)
    (h0 : l.getD i 0 ≠ 0) (hv : v ≠ 0) :
    countNonzero (l.set i v) = countNonzero l := by
  induction l generalizing i with
  | nil => simp at hi
  | cons a l ih =>
    cases i with
    | zero =>
      have ha : a ≠ 0 := by simpa using h0
      simp [countNonzero, ha, hv]
    | succ i =>
      have := ih i (by simpa using hi) (by simpa using h0)
      simp only [List.set_cons_succ, countNonzero, this]

/-! ### Characterisation of the `try_insert` scan -/

theorem tryInsertScan_eq_none (finger : Nat) (vec : List Nat) :
    ∀ count i, tryInsertScan finger vec i count = none ↔
      ∀ j < count, vec.getD (i + j) 0 ≠ 0 := by
  intro count
  induction count with
  | zero => simp [tryInsertScan]
  | succ c ih =>
    intro i
    by_cases h : vec.getD i 0 = 0
    · simp only [tryInsertScan, if_pos h]
      constructor
      · intro hc
        exact absurd hc (by simp)
      · intro hall
        exact absurd h (by simpa using hall 0 (Nat.succ_pos c))
    · simp only [tryInsertScan, if_neg h]
      rw [ih (i + 1)]
      constructor
      · intro hall j hj
        cases j with
        | zero => simpa using h
        | succ k =>
          have hk : k < c := by omega
          have := hall k hk
          have harith : i + 1 + k = i + (k + 1) := by omega
          rwa [harith] at this
      · intro hall j hj
        have := hall (j + 1) (by omega)
        have harith : i + (j + 1) = i + 1 + j := by omega
        rwa [harith] at this

theorem tryInsertScan_eq_some (finger : Nat) (vec : List Nat) :
    ∀ count i w, tryInsertScan finger vec i count = some w →
      ∃ j < count, vec.getD (i + j) 0 = 0 ∧
        (∀ k < j, vec.getD (i + k) 0 ≠ 0) ∧
        w = vec.set (i + j) finger := by
  intro count
  induction count with
  | zero => intro i w hw; simp [tryInsertScan] at hw
  | succ c ih =>
    intro i w hw
    by_cases h : vec.getD i 0 = 0
    · simp only [tryInsertScan, if_pos h] at hw
      refine ⟨0, Nat.succ_pos c, by simpa using h, ?_, ?_⟩
      · intro k hk
        exact absurd hk (Nat.not_lt_zero k)
      · simpa using hw.symm
    · simp only [tryInsertScan, if_neg h] at hw
      obtain ⟨j, hj, hz, hprev, hweq⟩ := ih (i + 1) w hw
      have harith : i + 1 + j = i + (j + 1) := by omega
      refine ⟨j + 1, by omega, by rwa [harith] at hz, ?_, by rwa [harith] at hweq⟩
      intro k hk
      cases k with
      | zero => simpa using h
      | succ m =>
        have := hprev m (by omega)
        have harith2 : i + 1 + m = i + (m + 1) := by omega
        rwa [harith2] at this

theorem tryInsertScan_first_zero (finger : Nat) (vec : List Nat)
    (count i j0 : Nat) (hj0 : j0 < count) (hz : vec.getD (i + j0) 0 = 0)
    (hmin : ∀ k < j0, vec.getD (i + k) 0 ≠ 0) :
    tryInsertScan finger vec i count = some (vec.set (i + j0) finger) := by
  cases heq : tryInsertScan finger vec i count with
  | none =>
    exact absurd hz ((tryInsertScan_eq_none finger vec count i).mp heq j0 hj0)
  | some w =>
    obtain ⟨j, hj, hzj, hprev, hweq⟩ :=
      tryInsertScan_eq_some finger vec count i w heq
    have hjj : j = j0 := by
      rcases Nat.lt_trichotomy j j0 with hlt | heq2 | hgt
      · exact absurd hzj (hmin j hlt)
      · exact heq2
      · exact absurd hz (hprev j0 hgt)
    rw [hweq, hjj]

/-! ### Effect of `try_insert` and `swap` on the slot vector -/

theorem tryInsertBucket_eq_none (ne : Nat) (vec : List Nat)
    (bucket finger : Nat) :
    tryInsertBucket ne vec bucket finger = none ↔ bucketFull ne vec bucket := by
  unfold tryInsertBucket bucketFull
  exact tryInsertScan_eq_none finger vec ne (bucket * ne)

theorem tryInsertBucket_some_spec (ne : Nat) (vec : List Nat)
    (bucket finger : Nat) (w : List Nat)
    (hw : tryInsertBucket ne vec bucket finger = some w)
    (hlen : bucket * ne + ne ≤ vec.length) (hf : finger ≠ 0) :
    countNonzero w = countNonzero vec + 1 ∧ w.length = vec.length ∧
      ∀ m, vec.getD m 0 ≠ 0 → w.getD m 0 ≠ 0 := by
  obtain ⟨j, hj, hz, -, hweq⟩ :=
    tryInsertScan_eq_some finger vec ne (bucket * ne) w hw
  have hpos : bucket * ne + j < vec.length := by omega
  subst hweq
  refine ⟨countNonzero_set_zero vec _ finger hpos hz hf, by simp, ?_⟩
  intro m hm
  by_cases hmp : bucket * ne + j = m
  · subst hmp
    rw [getD_set_self vec _ finger hpos]
    exact hf
  · rw [getD_set_ne vec _ m finger hmp]
    exact hm

theorem swapSlot_spec (ne : Nat) (vec : List Nat) (bucket entry finger : Nat)
    (hfull : bucketFull ne vec bucket) (he : entry < ne)
    (hlen : bucket * ne + ne ≤ vec.length) (hf : finger ≠ 0) :
    (swapSlot ne vec bucket entry finger).1 ≠ 0 ∧
      countNonzero (swapSlot ne vec bucket entry finger).2 = countNonzero vec ∧
      (swapSlot ne vec bucket entry finger).2.length = vec.length ∧
      ∀ m, vec.getD m 0 ≠ 0 →
        (swapSlot ne vec bucket entry finger).2.getD m 0 ≠ 0 := by
  have hold : vec.getD (bucket * ne + entry) 0 ≠ 0 := hfull entry he
  have hpos : bucket * ne + entry < vec.length := by omega
  unfold swapSlot
  refine ⟨hold, countNonzero_set_nonzero vec _ finger hpos hold hf, by simp, ?_⟩
  intro m hm
  by_cases hmp : bucket * ne + entry = m
  · subst hmp
    rw [getD_set_self vec _ finger hpos]
    exact hf
  · rw [getD_set_ne vec _ m finger hmp]
    exact hm

/-! ### Index bounds -/

theorem bucket_range_le (idx nb ne : Nat) (h : idx < nb) :
    idx * ne + ne ≤ nb * ne := by
  have h1 : idx + 1 ≤ nb := h
  calc idx * ne + ne = (idx + 1) * ne := by ring
    _ ≤ nb * ne := Nat.mul_le_mul_right ne h1

theorem bucketIndex_lt (nb h : Nat) (hnb : 0 < nb) : bucketIndex nb h < nb :=
  Nat.mod_lt _ hnb

theorem partner_index_lt (fh : Nat → Nat) (nb fp : Nat) (hnb : 0 < nb) :
    partner_index fh nb fp < nb :=
  Nat.mod_lt _ hnb

/-! ### The relocation loop -/

theorem kickLoop_result (cfg : Config) (fh pick : Nat → Nat) :
    ∀ fuel swaps idx finger vec,
      (∀ e, (kickLoop cfg fh pick swaps fuel idx finger vec).1 =
          Except.error e → e = cfg.max_swaps) ∧
      (∀ n, (kickLoop cfg fh pick swaps fuel idx finger vec).1 =
          Except.ok n → swaps ≤ n ∧ n < swaps + fuel) := by
  intro fuel
  induction fuel with
  | zero =>
    intro swaps idx finger vec
    constructor
    · intro e he
      simpa [kickLoop] using he.symm
    · intro n hn
      simp [kickLoop] at hn
  | succ f ih =>
    intro swaps idx finger vec
    simp only [kickLoop]
    cases hti : tryInsertBucket cfg.num_entries
        (swapSlot cfg.num_entries vec idx (pick swaps) finger).2
        (partner_index fh cfg.num_buckets
          (swapSlot cfg.num_entries vec idx (pick swaps) finger).1)
        (swapSlot cfg.num_entries vec idx (pick swaps) finger).1 with
    | some vec2 =>
      simp only [hti]
      constructor
      · intro e he
        simp at he
      · intro n hn
        simp at hn
        omega
    | none =>
      simp only [hti]
      obtain ⟨ihe, iho⟩ := ih (swaps + 1)
        (partner_index fh cfg.num_buckets
          (swapSlot cfg.num_entries vec idx (pick swaps) finger).1)
        (swapSlot cfg.num_entries vec idx (pick swaps) finger).1
        (swapSlot cfg.num_entries vec idx (pick swaps) finger).2
      constructor
      · exact ihe
      · intro n hn
        have := iho n hn
        omega

theorem kickLoop_zero (cfg : Config) (fh pick : Nat → Nat)
    (swaps idx finger : Nat) (vec : List Nat) :
    kickLoop cfg fh pick swaps 0 idx finger vec =
      (Except.error cfg.max_swaps, vec) := rfl

theorem kickLoop_succ_some (cfg : Config) (fh pick : Nat → Nat)
    (swaps fuel idx finger : Nat) (vec vec2 : List Nat)
    (hti : tryInsertBucket cfg.num_entries
        (swapSlot cfg.num_entries vec idx (pick swaps) finger).2
        (partner_index fh cfg.num_buckets
          (swapSlot cfg.num_entries vec idx (pick swaps) finger).1)
        (swapSlot cfg.num_entries vec idx (pick swaps) finger).1 = some vec2) :
    kickLoop cfg fh pick swaps (fuel + 1) idx finger vec =
      (Except.ok swaps, vec2) := by
  simp only [kickLoop, hti]

theorem kickLoop_succ_none (cfg : Config) (fh pick : Nat → Nat)
    (swaps fuel idx finger : Nat) (vec : List Nat)
    (hti : tryInsertBucket cfg.num_entries
        (swapSlot cfg.num_entries vec idx (pick swaps) finger).2
        (partner_index fh cfg.num_buckets
          (swapSlot cfg.num_entries vec idx (pick swaps) finger).1)
        (swapSlot cfg.num_entries vec idx (pick swaps) finger).1 = none) :
    kickLoop cfg fh pick swaps (fuel + 1) idx finger vec =
      kickLoop cfg fh pick (swaps + 1) fuel
        (partner_index fh cfg.num_buckets
          (swapSlot cfg.num_entries vec idx (pick swaps) finger).1)
        (swapSlot cfg.num_entries vec idx (pick swaps) finger).1
        (swapSlot cfg.num_entries vec idx (pick swaps) finger).2 := by
  simp only [kickLoop, hti]

theorem kickLoop_invariant (cfg : Config) (fh pick : Nat → Nat)
    (hpick : ∀ k, pick k < cfg.num_entries) :
    ∀ fuel swaps idx finger vec,
      idx < cfg.num_buckets → finger ≠ 0 →
      bucketFull cfg.num_entries vec idx →
      vec.length = cfg.num_buckets * cfg.num_entries →
      (kickLoop cfg fh pick swaps fuel idx finger vec).2.length = vec.length ∧
      countNonzero (kickLoop cfg fh pick swaps fuel idx finger vec).2 =
        countNonzero vec +
          (if isOkResult (kickLoop cfg fh pick swaps fuel idx finger vec).1
            then 1 else 0) ∧
      ∀ m, vec.getD m 0 ≠ 0 →
        (kickLoop cfg fh pick swaps fuel idx finger vec).2.getD m 0 ≠ 0 := by
  intro fuel
  induction fuel with
  | zero =>
    intro swaps idx finger vec _ _ _ _
    exact ⟨rfl, by simp [kickLoop, isOkResult], fun m hm => hm⟩
  | succ f ih =>
    intro swaps idx finger vec hidx hf0 hfull hlen
    have hnb : 0 < cfg.num_buckets := lt_of_le_of_lt (Nat.zero_le idx) hidx
    have hrange : idx * cfg.num_entries + cfg.num_entries ≤ vec.length := by
      rw [hlen]
      exact bucket_range_le idx cfg.num_buckets cfg.num_entries hidx
    obtain ⟨hev, hcnt, hlen2, hmono⟩ := swapSlot_spec cfg.num_entries vec idx
      (pick swaps) finger hfull (hpick swaps) hrange hf0
    have hidx1 : partner_index fh cfg.num_buckets
        (swapSlot cfg.num_entries vec idx (pick swaps) finger).1 <
        cfg.num_buckets := partner_index_lt _ _ _ hnb
    cases hti : tryInsertBucket cfg.num_entries
        (swapSlot cfg.num_entries vec idx (pick swaps) finger).2
        (partner_index fh cfg.num_buckets
          (swapSlot cfg.num_entries vec idx (pick swaps) finger).1)
        (swapSlot cfg.num_entries vec idx (pick swaps) finger).1 with
    | some vec2 =>
      rw [kickLoop_succ_some cfg fh pick swaps f idx finger vec vec2 hti]
      have hrange2 : partner_index fh cfg.num_buckets
          (swapSlot cfg.num_entries vec idx (pick swaps) finger).1 *
            cfg.num_entries + cfg.num_entries ≤
          (swapSlot cfg.num_entries vec idx (pick swaps) finger).2.length := by
        rw [hlen2, hlen]
        exact bucket_range_le _ cfg.num_buckets cfg.num_entries hidx1
      obtain ⟨hc2, hl2, hm2⟩ := tryInsertBucket_some_spec cfg.num_entries
        (swapSlot cfg.num_entries vec idx (pick swaps) finger).2
        (partner_index fh cfg.num_buckets
          (swapSlot cfg.num_entries vec idx (pick swaps) finger).1)
        (swapSlot cfg.num_entries vec idx (pick swaps) finger).1 vec2 hti
        hrange2 hev
      refine ⟨by rw [hl2, hlen2], ?_, ?_⟩
      · simp only [isOkResult, if_pos]
        rw [hc2, hcnt]
      · intro m hm
        exact hm2 m (hmono m hm)
    | none =>
      rw [kickLoop_succ_none cfg fh pick swaps f idx finger vec hti]
      have hfull2 : bucketFull cfg.num_entries
          (swapSlot cfg.num_entries vec idx (pick swaps) finger).2
          (partner_index fh cfg.num_buckets
            (swapSlot cfg.num_entries vec idx (pick swaps) finger).1) :=
        (tryInsertBucket_eq_none _ _ _ _).mp hti
      have hlen3 : (swapSlot cfg.num_entries vec idx (pick swaps) finger).2.length =
          cfg.num_buckets * cfg.num_entries := by rw [hlen2, hlen]
      obtain ⟨ih1, ih2, ih3⟩ := ih (swaps + 1)
        (partner_index fh cfg.num_buckets
          (swapSlot cfg.num_entries vec idx (pick swaps) finger).1)
        (swapSlot cfg.num_entries vec idx (pick swaps) finger).1
        (swapSlot cfg.num_entries vec idx (pick swaps) finger).2
        hidx1 hev hfull2 hlen3
      refine ⟨by rw [ih1, hlen2], ?_, ?_⟩
      · rw [ih2, hcnt]
      · intro m hm
        exact ih3 m (hmono m hm)

/-! ### The insertion algorithm -/

theorem finger8_ne_zero (h : Nat) : finger8 h ≠ 0 := by
  simp [finger8]

theorem finger16_ne_zero (h : Nat) : finger16 h ≠ 0 := by
  simp [finger16]

theorem insertCore_eq_first_some (cfg : Config) (fingerOf fh : Nat → Nat)
    (rng : Rng) (h : Nat) (vec vec1 : List Nat)
    (hti : tryInsertBucket cfg.num_entries vec
      (bucketIndex cfg.num_buckets h) (fingerOf h) = some vec1) :
    insertCore cfg fingerOf fh rng h vec = (Except.ok 0, vec1) := by
  simp only [insertCore, hti]

theorem insertCore_eq_second_some (cfg : Config) (fingerOf fh : Nat → Nat)
    (rng : Rng) (h : Nat) (vec vec1 : List Nat)
    (hti1 : tryInsertBucket cfg.num_entries vec
      (bucketIndex cfg.num_buckets h) (fingerOf h) = none)
    (hti2 : tryInsertBucket cfg.num_entries vec
      (partner_index fh cfg.num_buckets (fingerOf h)) (fingerOf h) = some vec1) :
    insertCore cfg fingerOf fh rng h vec = (Except.ok 0, vec1) := by
  simp only [insertCore, hti1, hti2]

theorem insertCore_eq_kick (cfg : Config) (fingerOf fh : Nat → Nat)
    (rng : Rng) (h : Nat) (vec : List Nat)
    (hti1 : tryInsertBucket cfg.num_entries vec
      (bucketIndex cfg.num_buckets h) (fingerOf h) = none)
    (hti2 : tryInsertBucket cfg.num_entries vec
      (partner_index fh cfg.num_buckets (fingerOf h)) (fingerOf h) = none) :
    insertCore cfg fingerOf fh rng h vec =
      kickLoop cfg fh rng.entryPick 1 cfg.max_swaps
        (if rng.chooseFirst then bucketIndex cfg.num_buckets h
          else partner_index fh cfg.num_buckets (fingerOf h))
        (fingerOf h) vec := by
  simp only [insertCore, hti1, hti2]

theorem insertCore_result (cfg : Config) (fingerOf fh : Nat → Nat)
    (rng : Rng) (h : Nat) (vec : List Nat) :
    (∀ e, (insertCore cfg fingerOf fh rng h vec).1 = Except.error e →
      e = cfg.max_swaps) ∧
    (∀ n, (insertCore cfg fingerOf fh rng h vec).1 = Except.ok n →
      n ≤ cfg.max_swaps) ∧
    (cfg.max_swaps = 0 →
      ∀ e, (insertCore cfg fingerOf fh rng h vec).1 = Except.error e →
        (insertCore cfg fingerOf fh rng h vec).2 = vec) := by
  cases hti1 : tryInsertBucket cfg.num_entries vec
      (bucketIndex cfg.num_buckets h) (fingerOf h) with
  | some vec1 =>
    rw [insertCore_eq_first_some cfg fingerOf fh rng h vec vec1 hti1]
    refine ⟨?_, ?_, ?_⟩
    · intro e he
      simp at he
    · intro n hn
      simp at hn
      omega
    · intro _ e he
      simp at he
  | none =>
    cases hti2 : tryInsertBucket cfg.num_entries vec
        (partner_index fh cfg.num_buckets (fingerOf h)) (fingerOf h) with
    | some vec1 =>
      rw [insertCore_eq_second_some cfg fingerOf fh rng h vec vec1 hti1 hti2]
      refine ⟨?_, ?_, ?_⟩
      · intro e he
        simp at he
      · intro n hn
        simp at hn
        omega
      · intro _ e he
        simp at he
    | none =>
      rw [insertCore_eq_kick cfg fingerOf fh rng h vec hti1 hti2]
      obtain ⟨he, ho⟩ := kickLoop_result cfg fh rng.entryPick cfg.max_swaps 1
        (if rng.chooseFirst then bucketIndex cfg.num_buckets h
          else partner_index fh cfg.num_buckets (fingerOf h))
        (fingerOf h) vec
      refine ⟨he, ?_, ?_⟩
      · intro n hn
        have := ho n hn
        omega
      · intro hms _ _
        rw [hms, kickLoop_zero]

theorem insertCore_invariant (cfg : Config) (fingerOf fh : Nat → Nat)
    (rng : Rng) (h : Nat) (vec : List Nat)
    (hnb : 0 < cfg.num_buckets)
    (hpick : ∀ k, rng.entryPick k < cfg.num_entries)
    (hfing : fingerOf h ≠ 0)
    (hlen : vec.length = cfg.num_buckets * cfg.num_entries) :
    (insertCore cfg fingerOf fh rng h vec).2.length = vec.length ∧
    countNonzero (insertCore cfg fingerOf fh rng h vec).2 =
      countNonzero vec +
        (if isOkResult (insertCore cfg fingerOf fh rng h vec).1 then 1 else 0) ∧
    ∀ m, vec.getD m 0 ≠ 0 →
      (insertCore cfg fingerOf fh rng h vec).2.getD m 0 ≠ 0 := by
  have hidx1 : bucketIndex cfg.num_buckets h < cfg.num_buckets :=
    bucketIndex_lt _ _ hnb
  have hidx2 : partner_index fh cfg.num_buckets (fingerOf h) <
      cfg.num_buckets := partner_index_lt _ _ _ hnb
  cases hti1 : tryInsertBucket cfg.num_entries vec
      (bucketIndex cfg.num_buckets h) (fingerOf h) with
  | some vec1 =>
    rw [insertCore_eq_first_some cfg fingerOf fh rng h vec vec1 hti1]
    have hrange : bucketIndex cfg.num_buckets h * cfg.num_entries +
        cfg.num_entries ≤ vec.length := by
      rw [hlen]
      exact bucket_range_le _ _ _ hidx1
    obtain ⟨hc, hl, hm⟩ := tryInsertBucket_some_spec cfg.num_entries vec
      (bucketIndex cfg.num_buckets h) (fingerOf h) vec1 hti1 hrange hfing
    exact ⟨hl, by simp [isOkResult, hc], hm⟩
  | none =>
    cases hti2 : tryInsertBucket cfg.num_entries vec
        (partner_index fh cfg.num_buckets (fingerOf h)) (fingerOf h) with
    | some vec1 =>
      rw [insertCore_eq_second_some cfg fingerOf fh rng h vec vec1 hti1 hti2]
      have hrange : partner_index fh cfg.num_buckets (fingerOf h) *
          cfg.num_entries + cfg.num_entries ≤ vec.length := by
        rw [hlen]
        exact bucket_range_le _ _ _ hidx2
      obtain ⟨hc, hl, hm⟩ := tryInsertBucket_some_spec cfg.num_entries vec
        (partner_index fh cfg.num_buckets (fingerOf h)) (fingerOf h) vec1 hti2
        hrange hfing
      exact ⟨hl, by simp [isOkResult, hc], hm⟩
    | none =>
      rw [insertCore_eq_kick cfg fingerOf fh rng h vec hti1 hti2]
      have hfull1 : bucketFull cfg.num_entries vec
          (bucketIndex cfg.num_buckets h) :=
        (tryInsertBucket_eq_none _ _ _ _).mp hti1
      have hfull2 : bucketFull cfg.num_entries vec
          (partner_index fh cfg.num_buckets (fingerOf h)) :=
        (tryInsertBucket_eq_none _ _ _ _).mp hti2
      refine kickLoop_invariant cfg fh rng.entryPick hpick cfg.max_swaps 1
        (if rng.chooseFirst then bucketIndex cfg.num_buckets h
          else partner_index fh cfg.num_buckets (fingerOf h))
        (fingerOf h) vec ?_ hfing ?_ hlen
      · cases rng.chooseFirst <;> simp [hidx1, hidx2]
      · cases hc : rng.chooseFirst <;> simp [hc, hfull1, hfull2]

/-! ### The `Filter` facade -/

theorem applyResult_spec (f : Filter) (r : Except Nat Nat × List Nat) :
    (applyResult f r).1 = r.1 ∧
    (applyResult f r).2.buckets = r.2 ∧
    (applyResult f r).2.used = f.used + (if isOkResult r.1 then 1 else 0) ∧
    (applyResult f r).2.finger_bits = f.finger_bits ∧
    (applyResult f r).2.num_buckets = f.num_buckets ∧
    (applyResult f r).2.num_entries = f.num_entries ∧
    (applyResult f r).2.max_swaps = f.max_swaps ∧
    (applyResult f r).2.bucket_type = f.bucket_type := by
  rcases r with ⟨r1, vec⟩
  cases r1 <;> simp [applyResult, isOkResult]

theorem rawInsert_result (hf : HashFns) (rng : Rng) (h : Nat) (f : Filter) :
    (∀ e, (f.rawInsert hf rng h).1 = Except.error e → e = f.max_swaps) ∧
    (∀ n, (f.rawInsert hf rng h).1 = Except.ok n → n ≤ f.max_swaps) ∧
    (f.max_swaps = 0 →
      ∀ e, (f.rawInsert hf rng h).1 = Except.error e →
        (f.rawInsert hf rng h).2 = f.buckets) := by
  have hms : f.config.max_swaps = f.max_swaps := rfl
  cases hbt : f.bucket_type with
  | u8 =>
    have := insertCore_result f.config finger8 hf.fh8 rng h f.buckets
    simpa [Filter.rawInsert, hbt, insert_u8, hms] using this
  | u16 =>
    have := insertCore_result f.config finger16 hf.fh16 rng h f.buckets
    simpa [Filter.rawInsert, hbt, insert_u16, hms] using this

theorem rawInsert_invariant (hf : HashFns) (rng : Rng) (h : Nat) (f : Filter)
    (hnb : 0 < f.num_buckets) (hpick : Rng.valid rng f.num_entries)
    (hlen : f.buckets.length = f.num_buckets * f.num_entries) :
    (f.rawInsert hf rng h).2.length = f.buckets.length ∧
    countNonzero (f.rawInsert hf rng h).2 =
      countNonzero f.buckets +
        (if isOkResult (f.rawInsert hf rng h).1 then 1 else 0) ∧
    ∀ m, f.buckets.getD m 0 ≠ 0 → (f.rawInsert hf rng h).2.getD m 0 ≠ 0 := by
  cases hbt : f.bucket_type with
  | u8 =>
    have := insertCore_invariant f.config finger8 hf.fh8 rng h f.buckets hnb
      hpick (finger8_ne_zero h) hlen
    simpa [Filter.rawInsert, hbt, insert_u8] using this
  | u16 =>
    have := insertCore_invariant f.config finger16 hf.fh16 rng h f.buckets hnb
      hpick (finger16_ne_zero h) hlen
    simpa [Filter.rawInsert, hbt, insert_u16] using this

theorem insert_step (hf : HashFns) (rng : Rng) (h : Nat) (f : Filter) :
    (f.insert hf rng h).1 = (f.rawInsert hf rng h).1 ∧
    (f.insert hf rng h).2.buckets = (f.rawInsert hf rng h).2 ∧
    (f.insert hf rng h).2.used =
      f.used + (if isOkResult (f.insert hf rng h).1 then 1 else 0) ∧
    (f.insert hf rng h).2.finger_bits = f.finger_bits ∧
    (f.insert hf rng h).2.num_buckets = f.num_buckets ∧
    (f.insert hf rng h).2.num_entries = f.num_entries ∧
    (f.insert hf rng h).2.max_swaps = f.max_swaps ∧
    (f.insert hf rng h).2.bucket_type = f.bucket_type := by
  obtain ⟨h1, h2, h3, h4, h5, h6, h7, h8⟩ :=
    applyResult_spec f (f.rawInsert hf rng h)
  refine ⟨h1, h2, ?_, h4, h5, h6, h7, h8⟩
  show (applyResult f (f.rawInsert hf rng h)).2.used =
    f.used + (if isOkResult (applyResult f (f.rawInsert hf rng h)).1 then 1 else 0)
  rw [h1]
  exact h3

theorem insert_WF (hf : HashFns) (rng : Rng) (h : Nat) (f : Filter)
    (hWF : f.WF) (hnb : 0 < f.num_buckets)
    (hpick : Rng.valid rng f.num_entries) :
    ((f.insert hf rng h).2).WF ∧
    ∀ m, f.buckets.getD m 0 ≠ 0 →
      (f.insert hf rng h).2.buckets.getD m 0 ≠ 0 := by
  obtain ⟨hlen, hcnt⟩ := hWF
  obtain ⟨r1, r2, r3, _, r5, r6, _, _⟩ := insert_step hf rng h f
  obtain ⟨i1, i2, i3⟩ := rawInsert_invariant hf rng h f hnb hpick hlen
  refine ⟨⟨?_, ?_⟩, ?_⟩
  · rw [r2, i1, hlen, r5, r6]
  · rw [r2, i2, hcnt, r3, r1]
  · intro m hm
    rw [r2]
    exact i3 m hm

/-! ### Sequences of inserts -/

theorem countOk_cons (x : Except Nat Nat) (rs : List (Except Nat Nat)) :
    countOk (x :: rs) = countOk rs + (if isOkResult x then 1 else 0) := by
  cases x <;> simp [countOk, isOkResult]

theorem countNonzero_replicate (n : Nat) :
    countNonzero (List.replicate n 0) = 0 := by
  induction n with
  | zero => simp [countNonzero]
  | succ n ih => simp [List.replicate_succ, countNonzero, ih]

theorem runInserts_used (hf : HashFns) :
    ∀ calls (f : Filter),
      ((runInserts hf f calls).2).used =
        f.used + countOk (runInserts hf f calls).1 := by
  intro calls
  induction calls with
  | nil => intro f; simp [runInserts, countOk]
  | cons c cs ih =>
    intro f
    obtain ⟨-, -, h3, -, -, -, -, -⟩ := insert_step hf c.rng c.h f
    simp only [runInserts]
    rw [countOk_cons, ih ((Filter.insert hf c.rng c.h f).2), h3]
    cases isOkResult ((Filter.insert hf c.rng c.h f).1)
    · simp
    · simp
      omega

theorem runInserts_fields (hf : HashFns) :
    ∀ calls (f : Filter),
      (runInserts hf f calls).2.finger_bits = f.finger_bits ∧
      (runInserts hf f calls).2.num_buckets = f.num_buckets ∧
      (runInserts hf f calls).2.num_entries = f.num_entries ∧
      (runInserts hf f calls).2.max_swaps = f.max_swaps ∧
      (runInserts hf f calls).2.bucket_type = f.bucket_type := by
  intro calls
  induction calls with
  | nil => intro f; simp [runInserts]
  | cons c cs ih =>
    intro f
    obtain ⟨-, -, -, s4, s5, s6, s7, s8⟩ := insert_step hf c.rng c.h f
    obtain ⟨i1, i2, i3, i4, i5⟩ := ih ((Filter.insert hf c.rng c.h f).2)
    simp only [runInserts]
    exact ⟨by rw [i1, s4], by rw [i2, s5], by rw [i3, s6], by rw [i4, s7],
      by rw [i5, s8]⟩

theorem runInserts_WF (hf : HashFns) :
    ∀ calls (f : Filter), f.WF → 0 < f.num_buckets →
      (∀ c ∈ calls, Rng.valid c.rng f.num_entries) →
      ((runInserts hf f calls).2).WF ∧
      ∀ m, f.buckets.getD m 0 ≠ 0 →
        (runInserts hf f calls).2.buckets.getD m 0 ≠ 0 := by
  intro calls
  induction calls with
  | nil =>
    intro f hWF _ _
    exact ⟨hWF, fun m hm => hm⟩
  | cons c cs ih =>
    intro f hWF hnb hvalid
    obtain ⟨hWF2, hmono⟩ := insert_WF hf c.rng c.h f hWF hnb
      (hvalid c (List.mem_cons_self c cs))
    obtain ⟨-, -, -, -, s5, s6, -, -⟩ := insert_step hf c.rng c.h f
    have hnb2 : 0 < (Filter.insert hf c.rng c.h f).2.num_buckets := by
      rw [s5]; exact hnb
    have hvalid2 : ∀ c2 ∈ cs,
        Rng.valid c2.rng (Filter.insert hf c.rng c.h f).2.num_entries := by
      intro c2 hc2
      rw [s6]
      exact hvalid c2 (List.mem_cons_of_mem c hc2)
    obtain ⟨ihWF, ihmono⟩ := ih ((Filter.insert hf c.rng c.h f).2) hWF2 hnb2
      hvalid2
    refine ⟨by simpa [runInserts] using ihWF, ?_⟩
    intro m hm
    simp only [runInserts]
    exact ihmono m (hmono m hm)

/-! ### Construction -/

theorem new_spec (c : Config) (f : Filter)
    (hnew : Filter.new c = Except.ok f) :
    f.finger_bits = c.finger_bits ∧ f.num_buckets = c.num_buckets ∧
    f.num_entries = c.num_entries ∧ f.max_swaps = c.max_swaps ∧
    f.used = 0 ∧
    f.buckets = List.replicate (c.num_buckets * c.num_entries) 0 ∧
    ((c.finger_bits = 8 ∧ f.bucket_type = BucketType.u8) ∨
      (c.finger_bits = 16 ∧ f.bucket_type = BucketType.u16)) := by
  by_cases h8 : c.finger_bits = 8
  · simp [Filter.new, init_buckets, h8] at hnew
    subst hnew
    simp [h8]
  · by_cases h16 : c.finger_bits = 16
    · simp [Filter.new, init_buckets, h8, h16] at hnew
      subst hnew
      simp [h16]
    · simp [Filter.new, init_buckets, h8, h16] at hnew

theorem new_WF (c : Config) (f : Filter)
    (hnew : Filter.new c = Except.ok f) : f.WF := by
  obtain ⟨-, h2, h3, -, h5, h6, -⟩ := new_spec c f hnew
  constructor
  · rw [h6, h2, h3]
    simp
  · rw [h6, h5, countNonzero_replicate]

/-! ### Double insertion of one key into a fresh filter -/

theorem tryInsertBucket_replicate (ne nb idx finger : Nat) (hne : 0 < ne) :
    tryInsertBucket ne (List.replicate (nb * ne) 0) idx finger =
      some ((List.replicate (nb * ne) 0).set (idx * ne) finger) := by
  have h0 : (List.replicate (nb * ne) (0 : Nat)).getD (idx * ne + 0) 0 = 0 :=
    getD_replicate_zero _ _
  have := tryInsertScan_first_zero finger (List.replicate (nb * ne) 0) ne
    (idx * ne) 0 hne h0 (fun k hk => absurd hk (Nat.not_lt_zero k))
  simpa [tryInsertBucket] using this

theorem tryInsertBucket_after_one (ne nb idx finger : Nat) (hne : 2 ≤ ne)
    (hidx : idx < nb) (hf : finger ≠ 0) :
    tryInsertBucket ne ((List.replicate (nb * ne) 0).set (idx * ne) finger)
        idx finger =
      some (((List.replicate (nb * ne) 0).set (idx * ne) finger).set
        (idx * ne + 1) finger) := by
  have hrange : idx * ne + ne ≤ nb * ne := bucket_range_le idx nb ne hidx
  have hpos : idx * ne < (List.replicate (nb * ne) (0 : Nat)).length := by
    simp
    omega
  have hz : ((List.replicate (nb * ne) 0).set (idx * ne) finger).getD
      (idx * ne + 1) 0 = 0 := by
    rw [getD_set_ne _ _ _ _ (by omega)]
    exact getD_replicate_zero _ _
  have hmin : ∀ k < 1,
      ((List.replicate (nb * ne) 0).set (idx * ne) finger).getD
        (idx * ne + k) 0 ≠ 0 := by
    intro k hk
    have hk0 : k = 0 := by omega
    subst hk0
    rw [Nat.add_zero, getD_set_self _ _ _ hpos]
    exact hf
  have := tryInsertScan_first_zero finger
    ((List.replicate (nb * ne) 0).set (idx * ne) finger) ne (idx * ne) 1
    (by omega) hz hmin
  simpa [tryInsertBucket] using this

theorem insert_fresh_ok (hf : HashFns) (rng : Rng) (h : Nat) (f : Filter)
    (hbk : f.buckets = List.replicate (f.num_buckets * f.num_entries) 0)
    (hne : 0 < f.num_entries) :
    (f.insert hf rng h).1 = Except.ok 0 ∧
    (f.insert hf rng h).2.buckets =
      f.buckets.set (bucketIndex f.num_buckets h * f.num_entries)
        (match f.bucket_type with
          | BucketType.u8 => finger8 h
          | BucketType.u16 => finger16 h) := by
  have hraw : f.rawInsert hf rng h =
      (Except.ok 0, f.buckets.set (bucketIndex f.num_buckets h * f.num_entries)
        (match f.bucket_type with
          | BucketType.u8 => finger8 h
          | BucketType.u16 => finger16 h)) := by
    cases hbt : f.bucket_type with
    | u8 =>
      have hti : tryInsertBucket f.config.num_entries f.buckets
          (bucketIndex f.config.num_buckets h) (finger8 h) =
          some (f.buckets.set
            (bucketIndex f.config.num_buckets h * f.config.num_entries)
            (finger8 h)) := by
        rw [hbk]
        exact tryInsertBucket_replicate f.num_entries f.num_buckets
          (bucketIndex f.num_buckets h) (finger8 h) hne
      simp only [Filter.rawInsert, hbt, insert_u8]
      rw [insertCore_eq_first_some f.config finger8 hf.fh8 rng h f.buckets _ hti]
      rfl
    | u16 =>
      have hti : tryInsertBucket f.config.num_entries f.buckets
          (bucketIndex f.config.num_buckets h) (finger16 h) =
          some (f.buckets.set
            (bucketIndex f.config.num_buckets h * f.config.num_entries)
            (finger16 h)) := by
        rw [hbk]
        exact tryInsertBucket_replicate f.num_entries f.num_buckets
          (bucketIndex f.num_buckets h) (finger16 h) hne
      simp only [Filter.rawInsert, hbt, insert_u16]
      rw [insertCore_eq_first_some f.config finger16 hf.fh16 rng h f.buckets _ hti]
      rfl
  obtain ⟨s1, s2, -, -, -, -, -, -⟩ := insert_step hf rng h f
  rw [s1, s2, hraw]
  exact ⟨rfl, rfl⟩

theorem insert_second_ok (hf : HashFns) (rng : Rng) (h : Nat) (f : Filter)
    (fng : Nat)
    (hfng : fng = (match f.bucket_type with
      | BucketType.u8 => finger8 h
      | BucketType.u16 => finger16 h))
    (hbk : f.buckets = (List.replicate (f.num_buckets * f.num_entries) 0).set
      (bucketIndex f.num_buckets h * f.num_entries) fng)
    (hnb : 0 < f.num_buckets) (hne : 2 ≤ f.num_entries) :
    (f.insert hf rng h).1 = Except.ok 0 := by
  have hfng0 : fng ≠ 0 := by
    rw [hfng]
    cases f.bucket_type
    · exact finger8_ne_zero h
    · exact finger16_ne_zero h
  have hidx : bucketIndex f.num_buckets h < f.num_buckets :=
    bucketIndex_lt _ _ hnb
  have hti : tryInsertBucket f.num_entries f.buckets
      (bucketIndex f.num_buckets h) fng =
      some (f.buckets.set
        (bucketIndex f.num_buckets h * f.num_entries + 1) fng) := by
    rw [hbk]
    exact tryInsertBucket_after_one f.num_entries f.num_buckets
      (bucketIndex f.num_buckets h) fng hne hidx hfng0
  have hraw : (f.rawInsert hf rng h).1 = Except.ok 0 := by
    cases hbt : f.bucket_type with
    | u8 =>
      have hfng8 : fng = finger8 h := by rw [hfng, hbt]
      simp only [Filter.rawInsert, hbt, insert_u8]
      rw [insertCore_eq_first_some f.config finger8 hf.fh8 rng h f.buckets _
        (by rw [← hfng8]; exact hti)]
    | u16 =>
      have hfng16 : fng = finger16 h := by rw [hfng, hbt]
      simp only [Filter.rawInsert, hbt, insert_u16]
      rw [insertCore_eq_first_some f.config finger16 hf.fh16 rng h f.buckets _
        (by rw [← hfng16]; exact hti)]
  obtain ⟨s1, -, -, -, -, -, -, -⟩ := insert_step hf rng h f
  rw [s1, hraw]

/-! ### Claims -/

/-- C1: `insert` performs at most `max_swaps` relocation attempts before
returning: an `Err` result always carries exactly the configured
`max_swaps`, an `Ok n` result has `n ≤ max_swaps` (the loop counter equals
the number of swap-and-retry iterations performed), and with
`max_swaps = 0` a failed insert returns `Err 0` with the bucket store
untouched, i.e. without any relocation attempt. -/
theorem insert_swap_budget (hf : HashFns) (rng : Rng) (h : Nat) (f : Filter) :
    (∀ e, (f.insert hf rng h).1 = Except.error e → e = f.max_swaps) ∧
    (∀ n, (f.insert hf rng h).1 = Except.ok n → n ≤ f.max_swaps) ∧
    (f.max_swaps = 0 → ∀ e, (f.insert hf rng h).1 = Except.error e →
      (f.insert hf rng h).2.buckets = f.buckets) := by
  obtain ⟨r1, r2, r3⟩ := rawInsert_result hf rng h f
  obtain ⟨s1, s2, -, -, -, -, -, -⟩ := insert_step hf rng h f
  refine ⟨?_, ?_, ?_⟩
  · intro e he
    exact r1 e (by rw [← s1]; exact he)
  · intro n hn
    exact r2 n (by rw [← s1]; exact hn)
  · intro hms e he
    rw [s2]
    exact r3 hms e (by rw [← s1]; exact he)

/-- Witness for C1: a filter with one full single-slot bucket and
`max_swaps = 0` rejects an insert with `Err 0` and unchanged buckets. -/
theorem insert_swap_budget_witness :
    (0 : Nat) = (⟨8, 1, 1, 0, BucketType.u8, [5], 1⟩ : Filter).max_swaps ∧
    ((⟨8, 1, 1, 0, BucketType.u8, [5], 1⟩ : Filter).insert
        ⟨fun _ => 0, fun _ => 0⟩ ⟨true, fun _ => 0⟩ 0).2.buckets = [5] := by
  constructor
  · exact (insert_swap_budget ⟨fun _ => 0, fun _ => 0⟩ ⟨true, fun _ => 0⟩ 0
      ⟨8, 1, 1, 0, BucketType.u8, [5], 1⟩).1 0 rfl
  · exact (insert_swap_budget ⟨fun _ => 0, fun _ => 0⟩ ⟨true, fun _ => 0⟩ 0
      ⟨8, 1, 1, 0, BucketType.u8, [5], 1⟩).2.2 rfl 0 rfl

/-- C2: after any finite sequence of inserts on a freshly constructed
filter, `used` equals the number of `Ok` results; moreover each single
`insert` increments `used` by exactly 1 on `Ok` and leaves it unchanged on
`Err`. -/
theorem used_counts_ok_results (hf : HashFns) (c : Config) (f0 : Filter)
    (calls : List InsertCall) (hnew : Filter.new c = Except.ok f0) :
    ((runInserts hf f0 calls).2).used = countOk (runInserts hf f0 calls).1 ∧
    (∀ rng hx f n, (Filter.insert hf rng hx f).1 = Except.ok n →
      (Filter.insert hf rng hx f).2.used = f.used + 1) ∧
    (∀ rng hx f e, (Filter.insert hf rng hx f).1 = Except.error e →
      (Filter.insert hf rng hx f).2.used = f.used) := by
  have h0 : f0.used = 0 := (new_spec c f0 hnew).2.2.2.2.1
  refine ⟨?_, ?_, ?_⟩
  · rw [runInserts_used hf calls f0, h0, Nat.zero_add]
  · intro rng hx f n hok
    obtain ⟨-, -, h3, -, -, -, -, -⟩ := insert_step hf rng hx f
    rw [h3, hok]
    simp [isOkResult]
  · intro rng hx f e herr
    obtain ⟨-, -, h3, -, -, -, -, -⟩ := insert_step hf rng hx f
    rw [h3, herr]
    simp [isOkResult]

/-- Witness for C2 at a concrete one-slot filter and a one-call sequence. -/
theorem used_counts_ok_results_witness :
    ((runInserts ⟨fun _ => 0, fun _ => 0⟩
        ⟨8, 1, 1, 0, BucketType.u8, [0], 0⟩
        [⟨⟨true, fun _ => 0⟩, 0⟩]).2).used =
      countOk (runInserts ⟨fun _ => 0, fun _ => 0⟩
        ⟨8, 1, 1, 0, BucketType.u8, [0], 0⟩
        [⟨⟨true, fun _ => 0⟩, 0⟩]).1 :=
  (used_counts_ok_results ⟨fun _ => 0, fun _ => 0⟩ ⟨8, 1, 1, 0⟩
    ⟨8, 1, 1, 0, BucketType.u8, [0], 0⟩ [⟨⟨true, fun _ => 0⟩, 0⟩] rfl).1

/-- C3: from a freshly constructed filter with `num_buckets > 0` and
well-formed random draws, every state reachable by a sequence of inserts
satisfies `used ≤ capacity` (`capacity = num_buckets * num_entries`). -/
theorem used_le_capacity (hf : HashFns) (c : Config) (f0 : Filter)
    (calls : List InsertCall) (hnew : Filter.new c = Except.ok f0)
    (hnb : 0 < c.num_buckets)
    (hvalid : ∀ call ∈ calls, Rng.valid call.rng c.num_entries) :
    ((runInserts hf f0 calls).2).used ≤
      ((runInserts hf f0 calls).2).capacity := by
  have hWF0 := new_WF c f0 hnew
  obtain ⟨-, hnb0, hne0, -, -, -, -⟩ := new_spec c f0 hnew
  have hnb' : 0 < f0.num_buckets := by rw [hnb0]; exact hnb
  have hvalid' : ∀ call ∈ calls, Rng.valid call.rng f0.num_entries := by
    intro call hcall
    rw [hne0]
    exact hvalid call hcall
  obtain ⟨⟨hlen, hcnt⟩, -⟩ := runInserts_WF hf calls f0 hWF0 hnb' hvalid'
  rw [← hcnt]
  calc countNonzero (runInserts hf f0 calls).2.buckets
      ≤ (runInserts hf f0 calls).2.buckets.length := countNonzero_le_length _
    _ = (runInserts hf f0 calls).2.capacity := by
        rw [Filter.capacity]
        exact hlen

/-- Witness for C3 at a concrete two-bucket filter and a two-call
sequence. -/
theorem used_le_capacity_witness :
    ((runInserts ⟨fun _ => 0, fun _ => 0⟩
        ⟨8, 2, 2, 1, BucketType.u8, [0, 0, 0, 0], 0⟩
        [⟨⟨true, fun _ => 0⟩, 0⟩, ⟨⟨false, fun _ => 1⟩, 3⟩]).2).used ≤
      ((runInserts ⟨fun _ => 0, fun _ => 0⟩
        ⟨8, 2, 2, 1, BucketType.u8, [0, 0, 0, 0], 0⟩
        [⟨⟨true, fun _ => 0⟩, 0⟩, ⟨⟨false, fun _ => 1⟩, 3⟩]).2).capacity := by
  refine used_le_capacity ⟨fun _ => 0, fun _ => 0⟩ ⟨8, 2, 2, 1⟩
    ⟨8, 2, 2, 1, BucketType.u8, [0, 0, 0, 0], 0⟩
    [⟨⟨true, fun _ => 0⟩, 0⟩, ⟨⟨false, fun _ => 1⟩, 3⟩] rfl (by decide) ?_
  intro call hcall
  simp only [List.mem_cons, List.mem_singleton] at hcall
  rcases hcall with h1 | h2 | h3
  · subst h1
    intro k
    exact Nat.zero_lt_two
  · subst h2
    intro k
    exact Nat.one_lt_two
  · cases h3

/-- C4: `Filter::new` succeeds exactly when `finger_bits` is 8 or 16;
no other `Config` field influences success. -/
theorem new_ok_iff_finger_bits (c : Config) :
    (∃ f, Filter.new c = Except.ok f) ↔
      (c.finger_bits = 8 ∨ c.finger_bits = 16) := by
  constructor
  · rintro ⟨f, hfl⟩
    rcases (new_spec c f hfl).2.2.2.2.2.2 with ⟨h8, -⟩ | ⟨h16, -⟩
    · exact Or.inl h8
    · exact Or.inr h16
  · rintro (h8 | h16)
    · exact ⟨⟨8, c.num_buckets, c.num_entries, c.max_swaps, BucketType.u8,
        List.replicate (c.num_buckets * c.num_entries) 0, 0⟩,
        by simp [Filter.new, init_buckets, h8]⟩
    · exact ⟨⟨16, c.num_buckets, c.num_entries, c.max_swaps, BucketType.u16,
        List.replicate (c.num_buckets * c.num_entries) 0, 0⟩,
        by simp [Filter.new, init_buckets, h16]⟩

/-- Witness for C4: both directions at concrete configs. -/
theorem new_ok_iff_finger_bits_witness :
    (∃ f, Filter.new ⟨8, 4, 2, 3⟩ = Except.ok f) ∧
    ¬(∃ f, Filter.new ⟨32, 4, 2, 3⟩ = Except.ok f) := by
  constructor
  · exact (new_ok_iff_finger_bits ⟨8, 4, 2, 3⟩).mpr (Or.inl rfl)
  · intro hex
    have := (new_ok_iff_finger_bits ⟨32, 4, 2, 3⟩).mp hex
    simp at this

/-- C5: the 8-bit fingerprint is `((h >> 32) % 255) + 1` and the 16-bit
fingerprint is `((h >> 32) % 65535) + 1`; both are nonzero and lie in
`[1, 2 ^ finger_bits - 1]`. -/
theorem fingerprint_formula_nonzero (h : Nat) :
    finger8 h = (h / 2 ^ 32) % 255 + 1 ∧
    finger16 h = (h / 2 ^ 32) % 65535 + 1 ∧
    finger8 h ≠ 0 ∧ finger16 h ≠ 0 ∧
    1 ≤ finger8 h ∧ finger8 h ≤ 2 ^ 8 - 1 ∧
    1 ≤ finger16 h ∧ finger16 h ≤ 2 ^ 16 - 1 := by
  have h8 : (h / 2 ^ 32) % 255 < 255 := Nat.mod_lt _ (by norm_num)
  have h16 : (h / 2 ^ 32) % 65535 < 65535 := Nat.mod_lt _ (by norm_num)
  refine ⟨rfl, rfl, finger8_ne_zero h, finger16_ne_zero h, ?_, ?_, ?_, ?_⟩
  · simp [finger8]
  · show (h / 2 ^ 32) % 255 + 1 ≤ 2 ^ 8 - 1
    norm_num
    omega
  · simp [finger16]
  · show (h / 2 ^ 32) % 65535 + 1 ≤ 2 ^ 16 - 1
    norm_num
    omega

/-- C6: the primary index is the low 32 bits of the item's 64-bit hash
reduced modulo `num_buckets`, the partner index is a fresh hash of the
fingerprint value alone reduced modulo `num_buckets` (`partner_index` takes
no primary-index argument at all, so it is not an XOR with the primary
index), and both indices are `< num_buckets` when `num_buckets > 0`. -/
theorem index_formula_range (nb h fp : Nat) (fh : Nat → Nat) (hnb : 0 < nb) :
    bucketIndex nb h = h % 2 ^ 32 % nb ∧
    partner_index fh nb fp = fh fp % 2 ^ 32 % nb ∧
    bucketIndex nb h < nb ∧
    partner_index fh nb fp < nb :=
  ⟨rfl, rfl, bucketIndex_lt nb h hnb, partner_index_lt fh nb fp hnb⟩

/-- Witness for C6 at concrete inputs. -/
theorem index_formula_range_witness :
    bucketIndex 3 10 < 3 ∧ partner_index (fun x => x + 1) 3 7 < 3 :=
  ⟨(index_formula_range 3 10 7 (fun x => x + 1) (by decide)).2.2.1,
   (index_formula_range 3 10 7 (fun x => x + 1) (by decide)).2.2.2⟩

/-- C7: `try_insert` writes the fingerprint into the first zero slot of the
bucket (in slot order) and returns success; it returns failure exactly when
the bucket has no zero slot, and on failure the store is unchanged. -/
theorem try_insert_first_empty (ne nb : Nat) (vec : List Nat)
    (bucket finger : Nat) (_hbucket : bucket < nb)
    (_hlen : vec.length = nb * ne) :
    (∀ j0 < ne, vec.getD (bucket * ne + j0) 0 = 0 →
      (∀ k < j0, vec.getD (bucket * ne + k) 0 ≠ 0) →
      try_insert ne vec bucket finger =
        (true, vec.set (bucket * ne + j0) finger)) ∧
    ((try_insert ne vec bucket finger).1 = false ↔
      bucketFull ne vec bucket) ∧
    ((try_insert ne vec bucket finger).1 = false →
      (try_insert ne vec bucket finger).2 = vec) := by
  refine ⟨?_, ?_, ?_⟩
  · intro j0 hj0 hz hmin
    have hscan := tryInsertScan_first_zero finger vec ne (bucket * ne) j0 hj0
      hz hmin
    unfold try_insert tryInsertBucket
    rw [hscan]
  · cases hti : tryInsertBucket ne vec bucket finger with
    | some w =>
      simp only [try_insert, hti]
      constructor
      · intro hfalse
        cases hfalse
      · intro hfull
        have := (tryInsertBucket_eq_none ne vec bucket finger).mpr hfull
        rw [hti] at this
        cases this
    | none =>
      simp only [try_insert, hti]
      constructor
      · intro _
        exact (tryInsertBucket_eq_none ne vec bucket finger).mp hti
      · intro _
        trivial
  · cases hti : tryInsertBucket ne vec bucket finger with
    | some w => simp [try_insert, hti]
    | none => simp [try_insert, hti]

/-- Witness for C7: inserting into a bucket whose first slot is taken and
second slot is empty writes into the second slot. -/
theorem try_insert_first_empty_witness :
    try_insert 2 [7, 0] 0 9 = (true, [7, 0].set (0 * 2 + 1) 9) :=
  (try_insert_first_empty 2 1 [7, 0] 0 9 (by decide) (by decide)).1 1
    (by decide) (by decide) (by decide)

/-- C8 counterexample: with the valid config `finger_bits = 8`,
`num_buckets = 1`, `num_entries = 1`, `max_swaps = 0`, inserting the same
key twice into the freshly constructed filter does not succeed twice: the
second insert returns `Err 0` and `used` stays 1, refuting the claim for
arbitrary valid configs. -/
theorem double_insert_not_always_ok :
    Filter.new ⟨8, 1, 1, 0⟩ =
      Except.ok ⟨8, 1, 1, 0, BucketType.u8, [0], 0⟩ ∧
    ((⟨8, 1, 1, 0, BucketType.u8, [0], 0⟩ : Filter).insert
        ⟨fun _ => 0, fun _ => 0⟩ ⟨true, fun _ => 0⟩ 0).1 = Except.ok 0 ∧
    (((⟨8, 1, 1, 0, BucketType.u8, [0], 0⟩ : Filter).insert
        ⟨fun _ => 0, fun _ => 0⟩ ⟨true, fun _ => 0⟩ 0).2.insert
        ⟨fun _ => 0, fun _ => 0⟩ ⟨true, fun _ => 0⟩ 0).1 =
      Except.error 0 ∧
    (((⟨8, 1, 1, 0, BucketType.u8, [0], 0⟩ : Filter).insert
        ⟨fun _ => 0, fun _ => 0⟩ ⟨true, fun _ => 0⟩ 0).2.insert
        ⟨fun _ => 0, fun _ => 0⟩ ⟨true, fun _ => 0⟩ 0).2.used = 1 :=
  ⟨rfl, rfl, rfl, rfl⟩

/-- C8 amended: for every valid config with `num_buckets > 0` and at least
two entries per bucket, inserting the same key twice into a freshly
constructed filter returns `Ok 0` both times and leaves `used = 2`
(no deduplication). -/
theorem double_insert_ok_of_two_entries (hf : HashFns) (rng rng2 : Rng)
    (h : Nat) (c : Config) (f0 : Filter)
    (hnew : Filter.new c = Except.ok f0)
    (hnb : 0 < c.num_buckets) (hne : 2 ≤ c.num_entries) :
    (f0.insert hf rng h).1 = Except.ok 0 ∧
    (((f0.insert hf rng h).2).insert hf rng2 h).1 = Except.ok 0 ∧
    (((f0.insert hf rng h).2).insert hf rng2 h).2.used = 2 := by
  obtain ⟨-, hnb0, hne0, -, hused, hbk, -⟩ := new_spec c f0 hnew
  have hne' : 0 < f0.num_entries := by omega
  have hbk' : f0.buckets =
      List.replicate (f0.num_buckets * f0.num_entries) 0 := by
    rw [hbk, hnb0, hne0]
  obtain ⟨ho1, hb1⟩ := insert_fresh_ok hf rng h f0 hbk' hne'
  obtain ⟨-, -, s3, -, s5, s6, -, s8⟩ := insert_step hf rng h f0
  have hnb1 : 0 < (f0.insert hf rng h).2.num_buckets := by rw [s5]; omega
  have hne1 : 2 ≤ (f0.insert hf rng h).2.num_entries := by rw [s6]; omega
  have hfng : (match (f0.insert hf rng h).2.bucket_type with
      | BucketType.u8 => finger8 h
      | BucketType.u16 => finger16 h) =
      (match f0.bucket_type with
      | BucketType.u8 => finger8 h
      | BucketType.u16 => finger16 h) := by rw [s8]
  have hbk1 : (f0.insert hf rng h).2.buckets =
      (List.replicate ((f0.insert hf rng h).2.num_buckets *
        (f0.insert hf rng h).2.num_entries) 0).set
        (bucketIndex (f0.insert hf rng h).2.num_buckets h *
          (f0.insert hf rng h).2.num_entries)
        (match (f0.insert hf rng h).2.bucket_type with
          | BucketType.u8 => finger8 h
          | BucketType.u16 => finger16 h) := by
    rw [hb1, hbk', s5, s6, hfng]
  have ho2 := insert_second_ok hf rng2 h (f0.insert hf rng h).2
    (match (f0.insert hf rng h).2.bucket_type with
      | BucketType.u8 => finger8 h
      | BucketType.u16 => finger16 h) rfl hbk1 hnb1 hne1
  obtain ⟨-, -, t3, -, -, -, -, -⟩ := insert_step hf rng2 h
    (f0.insert hf rng h).2
  refine ⟨ho1, ho2, ?_⟩
  rw [t3, s3, hused, ho1, ho2]
  simp [isOkResult]

/-- Witness for the amended C8 at a concrete two-entry filter. -/
theorem double_insert_ok_of_two_entries_witness :
    ((⟨8, 1, 2, 0, BucketType.u8, [0, 0], 0⟩ : Filter).insert
        ⟨fun _ => 0, fun _ => 0⟩ ⟨true, fun _ => 0⟩ 0).1 = Except.ok 0 ∧
    (((⟨8, 1, 2, 0, BucketType.u8, [0, 0], 0⟩ : Filter).insert
        ⟨fun _ => 0, fun _ => 0⟩ ⟨true, fun _ => 0⟩ 0).2.insert
        ⟨fun _ => 0, fun _ => 0⟩ ⟨true, fun _ => 0⟩ 0).1 = Except.ok 0 ∧
    (((⟨8, 1, 2, 0, BucketType.u8, [0, 0], 0⟩ : Filter).insert
        ⟨fun _ => 0, fun _ => 0⟩ ⟨true, fun _ => 0⟩ 0).2.insert
        ⟨fun _ => 0, fun _ => 0⟩ ⟨true, fun _ => 0⟩ 0).2.used = 2 :=
  double_insert_ok_of_two_entries ⟨fun _ => 0, fun _ => 0⟩
    ⟨true, fun _ => 0⟩ ⟨true, fun _ => 0⟩ 0 ⟨8, 1, 2, 0⟩
    ⟨8, 1, 2, 0, BucketType.u8, [0, 0], 0⟩ rfl (by decide) (by decide)

/-- C9: from a freshly constructed filter with `num_buckets > 0` and
well-formed random draws, in every reachable state the number of nonzero
slots equals `used`, and no slot ever goes from nonzero back to zero. -/
theorem occupied_slots_eq_used (hf : HashFns) (c : Config) (f0 : Filter)
    (calls : List InsertCall) (hnew : Filter.new c = Except.ok f0)
    (hnb : 0 < c.num_buckets)
    (hvalid : ∀ call ∈ calls, Rng.valid call.rng c.num_entries) :
    countNonzero ((runInserts hf f0 calls).2).buckets =
      ((runInserts hf f0 calls).2).used ∧
    ∀ m, f0.buckets.getD m 0 ≠ 0 →
      ((runInserts hf f0 calls).2).buckets.getD m 0 ≠ 0 := by
  have hWF0 := new_WF c f0 hnew
  obtain ⟨-, hnb0, hne0, -, -, -, -⟩ := new_spec c f0 hnew
  have hnb' : 0 < f0.num_buckets := by rw [hnb0]; exact hnb
  have hvalid' : ∀ call ∈ calls, Rng.valid call.rng f0.num_entries := by
    intro call hcall
    rw [hne0]
    exact hvalid call hcall
  obtain ⟨⟨-, hcnt⟩, hmono⟩ := runInserts_WF hf calls f0 hWF0 hnb' hvalid'
  exact ⟨hcnt, hmono⟩

/-- Witness for C9 at a concrete one-bucket filter and a one-call
sequence. -/
theorem occupied_slots_eq_used_witness :
    countNonzero ((runInserts ⟨fun _ => 0, fun _ => 0⟩
        ⟨8, 1, 2, 0, BucketType.u8, [0, 0], 0⟩
        [⟨⟨true, fun _ => 0⟩, 0⟩]).2).buckets =
      ((runInserts ⟨fun _ => 0, fun _ => 0⟩
        ⟨8, 1, 2, 0, BucketType.u8, [0, 0], 0⟩
        [⟨⟨true, fun _ => 0⟩, 0⟩]).2).used := by
  refine (occupied_slots_eq_used ⟨fun _ => 0, fun _ => 0⟩ ⟨8, 1, 2, 0⟩
    ⟨8, 1, 2, 0, BucketType.u8, [0, 0], 0⟩ [⟨⟨true, fun _ => 0⟩, 0⟩]
    rfl (by decide) ?_).1
  intro call hcall
  simp only [List.mem_singleton] at hcall
  subst hcall
  intro k
  exact Nat.zero_lt_two

/-- C10: `new` validates only `finger_bits` and accepts `num_buckets = 0`,
while the `(h as u32) % num_buckets` index computation divides by zero
exactly when `num_buckets = 0` (`index_checked` models the Rust panic as
`none`) and agrees with the total `bucketIndex` whenever
`num_buckets > 0`. -/
theorem new_accepts_zero_buckets (ne ms h nb : Nat) :
    (∃ f, Filter.new ⟨8, 0, ne, ms⟩ = Except.ok f ∧ f.num_buckets = 0) ∧
    (∃ f, Filter.new ⟨16, 0, ne, ms⟩ = Except.ok f ∧ f.num_buckets = 0) ∧
    index_checked 0 h = none ∧
    (0 < nb → index_checked nb h = some (bucketIndex nb h)) := by
  refine ⟨⟨_, rfl, rfl⟩, ⟨_, rfl, rfl⟩, ?_, ?_⟩
  · simp [index_checked]
  · intro hnb
    simp [index_checked, Nat.pos_iff_ne_zero.mp hnb]

/-- Witness for C10 at concrete inputs. -/
theorem new_accepts_zero_buckets_witness :
    index_checked 0 5 = none ∧ index_checked 7 5 = some (bucketIndex 7 5) :=
  ⟨(new_accepts_zero_buckets 3 2 5 7).2.2.1,
   (new_accepts_zero_buckets 3 2 5 7).2.2.2 (by decide)⟩

end Cuckoo
